import Mathlib

/-!
Shallow embedding of `src/src/web/oidc.rs` from `internetionals/ssh-casign-oidc`:
the bearer-token extraction and OIDC validation pipeline for an axum web service.

Modelling decisions:
* A request's `Parts` is its method, URI and header list (name/value pairs of
  strings); HTTP header names are matched case-insensitively, as the `http`
  crate does.
* The external Validator collaborator (`oidc_jwt_validator::Validator`,
  spec §1/§6) is modelled as a function `String → Except String α`: it takes the
  raw token and returns either claims deserialized into the caller's shape
  or a human-readable failure description.  `validate::<T>` in the source
  already folds claim-payload deserialization failures into its error, so the
  model does too.
* `into_response` builds the 401 via `Response::builder().header(..).body(..)
  .expect(..)`.  The `http` crate rejects header values containing bytes
  below 0x20 (except TAB) or 0x7F, in which case the `expect` panics.  A panic
  is modelled as `Option.none`.
* Bearer-scheme parsing (`axum_extra`/`headers` crates) is not part of the
  sources; it is modelled from the spec (see `bearerFromChars`).
-/

namespace SshCasignOidc

/-- A character acceptable inside an HTTP header value, per the `http` crate's
`HeaderValue` validation lifted from bytes to chars: a byte is valid iff it is
`≥ 0x20` and `≠ 0x7F`, or is TAB (`0x09`); every byte of a multi-byte UTF-8
character is `≥ 0x80` and hence valid, so the char-level check is exact. -/
def headerValueCharOk (c : Char) : Bool :=
  (decide (32 ≤ c.toNat) && c.toNat != 127) || c.toNat == 9

/-- A string acceptable as an HTTP header value. -/
def headerValueOk (s : String) : Bool :=
  s.data.all headerValueCharOk

/-- The error taxonomy of `oidc.rs`: `enum AuthError { InvalidToken(String) }`. -/
inductive AuthError where
  | invalidToken (msg : String)
deriving DecidableEq, Repr

/-- An HTTP response: status code, header list and body. -/
structure Response where
  status : Nat
  headers : List (String × String)
  body : String
deriving DecidableEq, Repr

/-- The fixed part of the challenge format string of oidc.rs line 43, up to and
including the opening quote of `error_description`. -/
def challengePre : String :=
  "Bearer realm=\"ssh-casign\" error=\"invalid_token\" error_description=\""

/-- The `WWW-Authenticate` value produced by `IntoResponse for AuthError`
(oidc.rs line 43): the realm is the fixed string `ssh-casign`, the error code
is `invalid_token`, and the description is interpolated verbatim. -/
def challengeValue (msg : String) : String :=
  challengePre ++ msg ++ "\""

/-- The description carried by an `AuthError`. -/
def AuthError.msg : AuthError → String
  | .invalidToken m => m

/-- `IntoResponse for AuthError` (oidc.rs lines 35-51): a 401 response with the
`WWW-Authenticate` challenge header and an empty (default) body.  `none` models
the panic of the `expect` when the builder rejects an invalid header value. -/
def intoResponse : AuthError → Option Response
  | .invalidToken msg =>
    if headerValueOk (challengeValue msg) then
      some { status := 401
             headers := [("WWW-Authenticate", challengeValue msg)]
             body := "" }
    else
      none

/-- Request parts: method, URI and the untrusted header list. -/
structure Parts where
  method : String
  uri : String
  headers : List (String × String)
deriving DecidableEq, Repr

/-- ASCII lower-casing of a single character, as the `http` crate normalizes
header names. -/
def asciiLowerChar (c : Char) : Char :=
  if 'A' ≤ c ∧ c ≤ 'Z' then Char.ofNat (c.toNat + 32) else c

/-- Case-insensitive match of a header name against `authorization`. -/
def isAuthorizationName (n : String) : Bool :=
  n.data.map asciiLowerChar == "authorization".data

/-- All values of the `Authorization` header, in order of appearance. -/
def authorizationValues (p : Parts) : List String :=
  (p.headers.filter fun h => isAuthorizationName h.1).map fun h => h.2

/-- Modelled from the spec: the Credential Extractor's scheme parsing lives in
the `headers`/`axum_extra` dependencies, not under `src/`.  Spec §4.1/§6: the
`Authorization` value must use the case-sensitive `Bearer` scheme followed by a
space and the opaque token; anything else is a parse failure. -/
def bearerFromChars : List Char → Option (List Char)
  | 'B' :: 'e' :: 'a' :: 'r' :: 'e' :: 'r' :: ' ' :: rest => some rest
  | _ => none

/-- Modelled from the spec: the Credential Extractor (spec §4.1).  It locates
the `Authorization` header (the typed-header decoder consumes the first value),
requires the bearer scheme, and yields the raw token string; an absent header
or any other scheme fails with a description of the parse error. -/
def extractBearer (p : Parts) : Except String String :=
  match authorizationValues p with
  | [] => .error "Header of type `authorization` was missing"
  | v :: _ =>
    match bearerFromChars v.data with
    | some tok => .ok (String.mk tok)
    | none => .error "invalid HTTP header (authorization)"

/-- The token the credential extractor yields on a given request (empty when
extraction fails); lets success conditions be stated without an existential. -/
def bearerTokenOf (p : Parts) : String :=
  match extractBearer p with
  | .ok t => t
  | .error _ => ""

/-- `struct Claims<T>(T)` (oidc.rs line 21): the typed claims container. -/
structure Claims (α : Type) where
  val : α
deriving DecidableEq, Repr

/-- `Deref for Claims<T>` (oidc.rs lines 23-29): transparent read access to the
wrapped claim value. -/
def Claims.deref {α : Type} (c : Claims α) : α :=
  c.val

/-- `from_request_parts` (oidc.rs lines 62-78): extract the bearer credential,
mapping a header failure into `AuthError::InvalidToken` of its description;
validate the token against claim shape `α`, mapping a validation failure into
`AuthError::InvalidToken` of its description; wrap accepted claims in
`Claims`. -/
def fromRequestParts {α : Type} (validate : String → Except String α)
    (p : Parts) : Except AuthError (Claims α) :=
  match extractBearer p with
  | .error e => .error (.invalidToken e)
  | .ok tok =>
    match validate tok with
    | .error e => .error (.invalidToken e)
    | .ok c => .ok ⟨c⟩

/-- The whole extraction-and-response flow of the core: on success the handler
receives the claims container; on failure the rejection is converted by
`intoResponse`.  `none` models a panic during response construction. -/
def flowResult {α : Type} (validate : String → Except String α)
    (p : Parts) : Option (Claims α ⊕ Response) :=
  match fromRequestParts validate p with
  | .ok c => some (.inl c)
  | .error e => (intoResponse e).map .inr

/-- The description of the extraction error on a given request (empty when
extraction succeeds); used to state that rejection of credential-less requests
does not depend on the Validator. -/
def extractErrMsg (p : Parts) : String :=
  match extractBearer p with
  | .error e => e
  | .ok _ => ""

/-- A description character the spec requires implementers to escape or
reject: a double quote, or a character not representable in a header value. -/
def needsEscapingChar (c : Char) : Bool :=
  c == '"' || !headerValueCharOk c

/-- Strip an expected literal character sequence from the front of a list,
returning the remainder on success. -/
def stripLit : List Char → List Char → Option (List Char)
  | [], rest => some rest
  | _ :: _, [] => none
  | l :: ls, c :: cs => if c = l then stripLit ls cs else none

/-- Legal content of an HTTP quoted-string: no raw double quote; a backslash
starts a quoted-pair escaping the following character (a trailing lone
backslash is also malformed). -/
def quotedStringBody : List Char → Bool
  | [] => true
  | c :: rest =>
    if c = '"' then false
    else if c = '\\' then
      match rest with
      | [] => false
      | _ :: rest2 => quotedStringBody rest2
    else quotedStringBody rest

/-- A well-formed emitted challenge: the fixed prefix
`Bearer realm="ssh-casign" error="invalid_token" error_description="`, then a
legal quoted-string body, then the closing quote. -/
def challengeWellFormed (v : String) : Bool :=
  match stripLit challengePre.data v.data with
  | none => false
  | some rest =>
    match rest.reverse with
    | '"' :: revBody => quotedStringBody revBody.reverse
    | _ => false

/-- Whether `sub` occurs as a contiguous run inside the second list. -/
def listHasInfix (sub : List Char) : List Char → Bool
  | [] => sub.isEmpty
  | c :: rest => sub.isPrefixOf (c :: rest) || listHasInfix sub rest

/-- Whether `sub` occurs as a substring of `s`. -/
def strHasInfix (s sub : String) : Bool :=
  listHasInfix sub.data s.data

/-- Claim C1: when the bearer header parses and the Validator accepts the token
for shape `α` returning claims `c`, extraction succeeds and the claims
container dereferences to exactly `c` — no transformation in between. -/
theorem accepted_claims_passed_through {α : Type}
    (validate : String → Except String α) (p : Parts) (tok : String) (c : α)
    (hext : extractBearer p = .ok tok) (hval : validate tok = .ok c) :
    fromRequestParts validate p = .ok (Claims.mk c) ∧ (Claims.mk c).deref = c := by
  simp [fromRequestParts, hext, hval, Claims.deref]

theorem accepted_claims_passed_through_witness :
    fromRequestParts (fun _ => (Except.ok 42 : Except String Nat))
        ⟨"GET", "/", [("Authorization", "Bearer abc.def.ghi")]⟩ =
      .ok (Claims.mk 42) ∧ (Claims.mk 42).deref = 42 :=
  accepted_claims_passed_through (fun _ => (Except.ok 42 : Except String Nat))
    ⟨"GET", "/", [("Authorization", "Bearer abc.def.ghi")]⟩ "abc.def.ghi" 42 rfl rfl

/-- Claim C2: any response produced from an `AuthError` has status 401, an
empty body, and exactly the `WWW-Authenticate` challenge header built from the
failure's description; no other response shape is ever produced. -/
theorem auth_failure_response_shape (e : AuthError) (r : Response)
    (h : intoResponse e = some r) :
    r.status = 401 ∧ r.body = "" ∧
      r.headers = [("WWW-Authenticate", challengeValue e.msg)] := by
  cases e with
  | invalidToken m =>
    cases hok : headerValueOk (challengeValue m) with
    | false => simp [intoResponse, hok] at h
    | true =>
      simp [intoResponse, hok] at h
      subst h
      exact ⟨rfl, rfl, rfl⟩

theorem auth_failure_response_shape_witness :
    (Response.mk 401 [("WWW-Authenticate", challengeValue "expired")] "").status = 401 ∧
      (Response.mk 401 [("WWW-Authenticate", challengeValue "expired")] "").body = "" ∧
      (Response.mk 401 [("WWW-Authenticate", challengeValue "expired")] "").headers =
        [("WWW-Authenticate", challengeValue (AuthError.invalidToken "expired").msg)] :=
  auth_failure_response_shape (.invalidToken "expired")
    (Response.mk 401 [("WWW-Authenticate", challengeValue "expired")] "") (by decide)

/-- Claim C3: a claims container is only produced after the Validator accepted
the token: every successful extraction exhibits the token the credential
extractor yielded, and the Validator accepted it with exactly the wrapped
claims. -/
theorem claims_only_after_validation {α : Type}
    (validate : String → Except String α) (p : Parts) (cl : Claims α)
    (h : fromRequestParts validate p = .ok cl) :
    extractBearer p = .ok (bearerTokenOf p) ∧
      validate (bearerTokenOf p) = .ok cl.deref := by
  unfold fromRequestParts at h
  split at h
  · cases h
  · rename_i tok hext
    split at h
    · cases h
    · rename_i c hval
      cases h
      have htok : bearerTokenOf p = tok := by simp [bearerTokenOf, hext]
      rw [htok]
      exact ⟨hext, hval⟩

theorem claims_only_after_validation_witness :
    extractBearer ⟨"GET", "/", [("Authorization", "Bearer t")]⟩ =
      .ok (bearerTokenOf ⟨"GET", "/", [("Authorization", "Bearer t")]⟩) ∧
      (fun s => (Except.ok s : Except String String))
          (bearerTokenOf ⟨"GET", "/", [("Authorization", "Bearer t")]⟩) =
        .ok (Claims.mk "t").deref :=
  claims_only_after_validation (fun s => (Except.ok s : Except String String))
    ⟨"GET", "/", [("Authorization", "Bearer t")]⟩ (Claims.mk "t") rfl

theorem headerValueOk_challenge (msg : String) :
    headerValueOk (challengeValue msg) = headerValueOk msg := by
  unfold headerValueOk challengeValue
  rw [String.data_append, String.data_append, List.all_append, List.all_append]
  have h1 : challengePre.data.all headerValueCharOk = true := by decide
  have h2 : ("\"" : String).data.all headerValueCharOk = true := by decide
  rw [h1, h2]
  simp

theorem fromRequestParts_error_msg {α : Type} (validate : String → Except String α)
    (p : Parts) (m : String)
    (h : fromRequestParts validate p = .error (.invalidToken m)) :
    m = "Header of type `authorization` was missing" ∨
    m = "invalid HTTP header (authorization)" ∨
    ∃ tok, validate tok = .error m := by
  unfold fromRequestParts at h
  split at h
  · rename_i e hext
    cases h
    unfold extractBearer at hext
    split at hext
    · cases hext
      exact Or.inl rfl
    · split at hext
      · cases hext
      · cases hext
        exact Or.inr (Or.inl rfl)
  · rename_i tok hext
    split at h
    · rename_i e hval
      cases h
      exact Or.inr (Or.inr ⟨tok, hval⟩)
    · cases h

/-- Claim C4 counterexample: the flow does panic on adversarial input — a
Validator failure description containing a newline makes the response builder
reject the `WWW-Authenticate` value, so the `expect` in `into_response`
panics (modelled as `none`) instead of producing a response. -/
theorem flow_panics_on_control_char_description :
    flowResult (fun _ => (Except.error "\n" : Except String Nat))
      ⟨"GET", "/", [("Authorization", "Bearer abc")]⟩ = none := by decide

/-- Claim C4 (amended): the flow never panics provided every failure
description the Validator produces is representable in an HTTP header value
(no control characters other than TAB, no DEL); the header parser's own
descriptions are fixed safe strings, so any such execution ends in either
claims or a response. -/
theorem flow_total_for_header_safe_reasons {α : Type}
    (validate : String → Except String α) (p : Parts)
    (hsafe : ∀ tok e, validate tok = .error e → headerValueOk e = true) :
    flowResult validate p ≠ none := by
  unfold flowResult
  cases hfr : fromRequestParts validate p with
  | ok c => simp
  | error e =>
    cases e with
    | invalidToken m =>
      have hm := fromRequestParts_error_msg validate p m hfr
      have hok : headerValueOk m = true := by
        rcases hm with h | h | ⟨tok, h⟩
        · rw [h]; decide
        · rw [h]; decide
        · exact hsafe tok m h
      simp [intoResponse, headerValueOk_challenge, hok]

theorem flow_total_for_header_safe_reasons_witness :
    flowResult (fun _ => (Except.error "expired" : Except String Nat))
      ⟨"GET", "/", [("Authorization", "Bearer abc")]⟩ ≠ none :=
  flow_total_for_header_safe_reasons
    (fun _ => (Except.error "expired" : Except String Nat))
    ⟨"GET", "/", [("Authorization", "Bearer abc")]⟩
    (fun tok e h => by
      injection h with h2
      rw [← h2]
      decide)

theorem stripLit_append (pre : List Char) :
    ∀ rest : List Char, stripLit pre (pre ++ rest) = some rest := by
  induction pre with
  | nil => intro rest; rfl
  | cons a ps ih => intro rest; simp [stripLit, ih]

theorem quotedStringBody_of_clean :
    ∀ l : List Char, l.all (fun c => c != '"' && c != '\\') = true →
      quotedStringBody l = true := by
  intro l
  induction l with
  | nil => intro h; rfl
  | cons c rest ih =>
    intro h
    simp only [List.all_cons, Bool.and_eq_true, bne_iff_ne, ne_eq] at h
    obtain ⟨⟨hq, hb⟩, hrest⟩ := h
    unfold quotedStringBody
    rw [if_neg hq, if_neg hb]
    exact ih hrest

/-- Claim C5 counterexample: the responder neither escapes nor rejects a
description containing a double quote — it interpolates it verbatim, and the
emitted `WWW-Authenticate` value is not a well-formed challenge (the quoted
`error_description` is broken by the raw quote). -/
theorem unescaped_quote_malformed_challenge :
    ("a\"b" : String).data.any needsEscapingChar = true ∧
    intoResponse (.invalidToken "a\"b") =
      some ⟨401, [("WWW-Authenticate", challengeValue "a\"b")], ""⟩ ∧
    challengeWellFormed (challengeValue "a\"b") = false := by
  exact ⟨by decide, by decide, by decide⟩

/-- Claim C5 (amended): no escaping or rejection happens — the description is
embedded verbatim.  A description containing a double quote or a backslash can
break the quoted `error_description`, and one containing control characters
makes construction panic; for every description free of double quotes,
backslashes and header-invalid characters, the emitted challenge is
well-formed. -/
theorem challenge_wellformed_for_clean_descriptions (d : String)
    (h : d.data.all
      (fun c => headerValueCharOk c && c != '"' && c != '\\') = true) :
    intoResponse (.invalidToken d) =
      some ⟨401, [("WWW-Authenticate", challengeValue d)], ""⟩ ∧
    challengeWellFormed (challengeValue d) = true := by
  have hhv : headerValueOk d = true := by
    unfold headerValueOk
    rw [List.all_eq_true] at h ⊢
    intro c hc
    have hcc := h c hc
    simp only [Bool.and_eq_true] at hcc
    exact hcc.1.1
  constructor
  · simp [intoResponse, headerValueOk_challenge, hhv]
  · unfold challengeWellFormed challengeValue
    rw [String.data_append, String.data_append]
    have hq : ("\"" : String).data = ['"'] := rfl
    rw [hq, List.append_assoc, stripLit_append]
    show (match (d.data ++ ['"']).reverse with
      | '"' :: revBody => quotedStringBody revBody.reverse
      | _ => false) = true
    have hrev : (d.data ++ ['"']).reverse = '"' :: d.data.reverse := by simp
    rw [hrev]
    show quotedStringBody d.data.reverse.reverse = true
    rw [List.reverse_reverse]
    apply quotedStringBody_of_clean
    rw [List.all_eq_true] at h ⊢
    intro c hc
    have hcc := h c hc
    simp only [Bool.and_eq_true] at hcc ⊢
    exact ⟨hcc.1.2, hcc.2⟩

theorem challenge_wellformed_for_clean_descriptions_witness :
    intoResponse (.invalidToken "token expired") =
      some ⟨401, [("WWW-Authenticate", challengeValue "token expired")], ""⟩ ∧
    challengeWellFormed (challengeValue "token expired") = true :=
  challenge_wellformed_for_clean_descriptions "token expired" (by decide)

/-- Claim C6: when the credential extractor yields a token that the Validator
rejects (for any reason, claim-payload deserialization failure included, since
`validate::<T>` folds it into its error), extraction fails with the
Validator's reason verbatim, and the only response ever built from that
failure is the 401 challenge carrying that reason (or, when the reason is not
header-representable, no response at all). -/
theorem validator_error_propagated {α : Type}
    (validate : String → Except String α) (p : Parts) (tok e : String)
    (hext : extractBearer p = .ok tok) (hval : validate tok = .error e) :
    fromRequestParts validate p = .error (.invalidToken e) ∧
      (intoResponse (.invalidToken e) = none ∨
        intoResponse (.invalidToken e) =
          some ⟨401, [("WWW-Authenticate", challengeValue e)], ""⟩) := by
  constructor
  · simp [fromRequestParts, hext, hval]
  · cases hok : headerValueOk (challengeValue e) with
    | false => exact Or.inl (by simp [intoResponse, hok])
    | true => exact Or.inr (by simp [intoResponse, hok])

theorem validator_error_propagated_witness :
    fromRequestParts (fun _ => (Except.error "token expired" : Except String Nat))
        ⟨"GET", "/", [("Authorization", "Bearer abc")]⟩ =
      .error (.invalidToken "token expired") ∧
      (intoResponse (.invalidToken "token expired") = none ∨
        intoResponse (.invalidToken "token expired") =
          some ⟨401, [("WWW-Authenticate", challengeValue "token expired")], ""⟩) :=
  validator_error_propagated (fun _ => (Except.error "token expired" : Except String Nat))
    ⟨"GET", "/", [("Authorization", "Bearer abc")]⟩ "abc" "token expired" rfl rfl

theorem extractBearer_of_no_authorization (p : Parts)
    (h : authorizationValues p = []) :
    extractBearer p = .error "Header of type `authorization` was missing" := by
  simp [extractBearer, h]

theorem extractBearer_of_bad_scheme (p : Parts) (v : String) (rest : List String)
    (hv : authorizationValues p = v :: rest) (hb : bearerFromChars v.data = none) :
    extractBearer p = .error "invalid HTTP header (authorization)" := by
  simp [extractBearer, hv, hb]

/-- Claim C7: a request with no `Authorization` header, or one whose first
`Authorization` value does not use the bearer scheme, is rejected with the 401
challenge whose value contains `error="invalid_token"`, and the outcome is the
same for every Validator (of any claim shape): the Validator is not
consulted. -/
theorem missing_or_nonbearer_rejected {α β : Type}
    (validate : String → Except String α) (validate2 : String → Except String β)
    (p : Parts)
    (h : authorizationValues p = [] ∨
      ∃ v rest, authorizationValues p = v :: rest ∧ bearerFromChars v.data = none) :
    fromRequestParts validate p = .error (.invalidToken (extractErrMsg p)) ∧
      fromRequestParts validate2 p = .error (.invalidToken (extractErrMsg p)) ∧
      intoResponse (.invalidToken (extractErrMsg p)) =
        some ⟨401, [("WWW-Authenticate", challengeValue (extractErrMsg p))], ""⟩ ∧
      strHasInfix (challengeValue (extractErrMsg p)) "error=\"invalid_token\"" = true := by
  rcases h with h | ⟨v, rest, hv, hb⟩
  · have he := extractBearer_of_no_authorization p h
    have hmsg : extractErrMsg p = "Header of type `authorization` was missing" := by
      simp [extractErrMsg, he]
    rw [hmsg]
    exact ⟨by simp [fromRequestParts, he], by simp [fromRequestParts, he],
      by decide, by decide⟩
  · have he := extractBearer_of_bad_scheme p v rest hv hb
    have hmsg : extractErrMsg p = "invalid HTTP header (authorization)" := by
      simp [extractErrMsg, he]
    rw [hmsg]
    exact ⟨by simp [fromRequestParts, he], by simp [fromRequestParts, he],
      by decide, by decide⟩

theorem missing_or_nonbearer_rejected_witness :
    fromRequestParts (fun s => (Except.ok s : Except String String))
        ⟨"GET", "/", [("Host", "h")]⟩ =
      .error (.invalidToken (extractErrMsg ⟨"GET", "/", [("Host", "h")]⟩)) ∧
      fromRequestParts (fun _ => (Except.ok 0 : Except String Nat))
        ⟨"GET", "/", [("Host", "h")]⟩ =
      .error (.invalidToken (extractErrMsg ⟨"GET", "/", [("Host", "h")]⟩)) ∧
      intoResponse (.invalidToken (extractErrMsg ⟨"GET", "/", [("Host", "h")]⟩)) =
        some ⟨401, [("WWW-Authenticate",
          challengeValue (extractErrMsg ⟨"GET", "/", [("Host", "h")]⟩))], ""⟩ ∧
      strHasInfix (challengeValue (extractErrMsg ⟨"GET", "/", [("Host", "h")]⟩))
        "error=\"invalid_token\"" = true :=
  missing_or_nonbearer_rejected (fun s => (Except.ok s : Except String String))
    (fun _ => (Except.ok 0 : Except String Nat))
    ⟨"GET", "/", [("Host", "h")]⟩ (Or.inl rfl)

theorem bearerFromChars_some (l rest : List Char)
    (h : bearerFromChars l = some rest) :
    l = 'B' :: 'e' :: 'a' :: 'r' :: 'e' :: 'r' :: ' ' :: rest := by
  unfold bearerFromChars at h
  split at h
  · cases h; rfl
  · cases h

theorem list_length_six {α : Type} (l : List α) (h : l.length = 6) :
    ∃ a b c d e f, l = [a, b, c, d, e, f] := by
  rcases l with _ | ⟨a, _ | ⟨b, _ | ⟨c, _ | ⟨d, _ | ⟨e, _ | ⟨f, _ | ⟨g, t⟩⟩⟩⟩⟩⟩⟩ <;>
    simp_all

/-- Claim C8: the bearer scheme name is matched case-sensitively: any other
letter casing of `bearer` in the `Authorization` value makes extraction
fail. -/
theorem bearer_scheme_case_sensitive (p : Parts) (scheme tok : String)
    (rest : List String)
    (hv : authorizationValues p = (scheme ++ " " ++ tok) :: rest)
    (hlower : scheme.data.map asciiLowerChar = "bearer".data)
    (hne : scheme ≠ "Bearer") :
    extractBearer p = .error "invalid HTTP header (authorization)" := by
  have hsp : (" " : String).data = [' '] := rfl
  have hdata : (scheme ++ " " ++ tok).data = scheme.data ++ ' ' :: tok.data := by
    rw [String.data_append, String.data_append, hsp, List.append_assoc]
    rfl
  have hb : bearerFromChars (scheme ++ " " ++ tok).data = none := by
    cases hbc : bearerFromChars (scheme ++ " " ++ tok).data with
    | none => rfl
    | some r =>
      exfalso
      have hchain := bearerFromChars_some _ _ hbc
      rw [hdata] at hchain
      have hlen : scheme.data.length = 6 := by
        have := congrArg List.length hlower
        simpa using this
      obtain ⟨c1, c2, c3, c4, c5, c6, hs⟩ := list_length_six scheme.data hlen
      rw [hs] at hchain
      simp only [List.cons_append, List.nil_append, List.cons.injEq] at hchain
      obtain ⟨h1, h2, h3, h4, h5, h6, -⟩ := hchain
      apply hne
      apply String.ext
      rw [hs, h1, h2, h3, h4, h5, h6]
  exact extractBearer_of_bad_scheme p _ rest hv hb

theorem bearer_scheme_case_sensitive_witness :
    extractBearer ⟨"GET", "/", [("Authorization", "bearer abc")]⟩ =
      .error "invalid HTTP header (authorization)" :=
  bearer_scheme_case_sensitive ⟨"GET", "/", [("Authorization", "bearer abc")]⟩
    "bearer" "abc" [] (by decide) (by decide) (by decide)

/-- Claim C9: the realm in every produced challenge is the fixed string
`ssh-casign`: the header value is literally
`Bearer realm="ssh-casign" error="invalid_token" error_description="<d>"`. -/
theorem challenge_realm_fixed (d : String) (r : Response)
    (h : intoResponse (.invalidToken d) = some r) :
    r.headers = [("WWW-Authenticate",
      "Bearer realm=\"ssh-casign\" error=\"invalid_token\" error_description=\""
        ++ d ++ "\"")] := by
  cases hok : headerValueOk (challengeValue d) with
  | false => simp [intoResponse, hok] at h
  | true =>
    simp [intoResponse, hok] at h
    subst h
    rfl

theorem challenge_realm_fixed_witness :
    (Response.mk 401 [("WWW-Authenticate", challengeValue "expired")] "").headers =
      [("WWW-Authenticate",
        "Bearer realm=\"ssh-casign\" error=\"invalid_token\" error_description=\""
          ++ "expired" ++ "\"")] :=
  challenge_realm_fixed "expired"
    (Response.mk 401 [("WWW-Authenticate", challengeValue "expired")] "") (by decide)

/-- Claim C10: the extraction outcome is a function of the `Authorization`
header values and the Validator alone: two requests with equal `Authorization`
headers yield identical results, whatever their method, URI or other
headers. -/
theorem outcome_depends_only_on_authorization {α : Type}
    (validate : String → Except String α) (p1 p2 : Parts)
    (h : authorizationValues p1 = authorizationValues p2) :
    fromRequestParts validate p1 = fromRequestParts validate p2 := by
  unfold fromRequestParts extractBearer
  rw [h]

theorem outcome_depends_only_on_authorization_witness :
    fromRequestParts (fun s => (Except.ok s : Except String String))
        ⟨"GET", "/a", [("Authorization", "Bearer t"), ("Host", "h1")]⟩ =
      fromRequestParts (fun s => (Except.ok s : Except String String))
        ⟨"POST", "/b", [("Cookie", "c"), ("authorization", "Bearer t")]⟩ :=
  outcome_depends_only_on_authorization (fun s => (Except.ok s : Except String String))
    ⟨"GET", "/a", [("Authorization", "Bearer t"), ("Host", "h1")]⟩
    ⟨"POST", "/b", [("Cookie", "c"), ("authorization", "Bearer t")]⟩ (by decide)

end SshCasignOidc
